import Mathlib

/-!
Verification of the FinGame story engine and game-session controller
(`backend/app/services/story_engine.py` and
`backend/app/services/game_service.py`).

The Python code is embedded shallowly: story data (JSON) becomes inductive
types and structures with `Option` fields for optional keys, the mutable
SQLAlchemy database becomes an explicit `Db` record threaded through the
operations, and Python truthiness tests are translated explicitly (an empty
string and an empty dict are falsy).
-/

namespace FinGame

/-- Bilingual text value as found in the story JSON: either a plain string
or a mapping from language names to strings (a Python dict, modelled as an
association list with distinct keys in insertion order). -/
inductive TextValue where
  | str (s : String)
  | dict (kvs : List (String × String))
deriving Repr, DecidableEq

/-- Python `dict.get(k)` on a string-to-string mapping: first entry whose
key matches (keys are distinct in a dict, so first-match is dict lookup). -/
def lookupKey (kvs : List (String × String)) (k : String) : Option String :=
  match kvs with
  | [] => none
  | (k', v) :: rest => if k' == k then some v else lookupKey rest k

/-- Python `str(value)` on a string-to-string dict:
`\x7b'k1': 'v1', 'k2': 'v2'\x7d` in insertion order. -/
def pyDictRepr (kvs : List (String × String)) : String :=
  "\x7b" ++ String.intercalate ", "
    (kvs.map (fun kv => "'" ++ kv.1 ++ "': '" ++ kv.2 ++ "'")) ++ "\x7d"

/-- `StoryEngine.resolve_text(value, language)`.  `value` is a JSON value
that is a dict, a string, or `None` (modelled as `none`).  Source:
if `isinstance(value, dict)` return
`value.get(language, value.get("english", str(value)))`;
otherwise `return value if value else ""` (Python truthiness: the empty
string is falsy). -/
def resolve_text (value : Option TextValue) (language : String) : String :=
  match value with
  | some (.dict kvs) =>
      match lookupKey kvs language with
      | some v => v
      | none =>
          match lookupKey kvs "english" with
          | some v => v
          | none => pyDictRepr kvs
  | some (.str s) => if s == "" then "" else s
  | none => ""

/-- Per-choice resource impact `\x7bsavings, debt, confidence\x7d`, every
field optional (`.get(key, 0)` in the source). -/
structure Impact where
  savings : Option Int
  debt : Option Int
  confidence : Option Int
deriving Repr, DecidableEq

/-- The `next_node` key of a choice: absent, explicitly `null`, or an
explicit node-id string. -/
inductive NextNodeField where
  | absent
  | null
  | id (s : String)
deriving Repr, DecidableEq

/-- Choice feedback block (`isCorrect`, `advice`, `nextScenario`), all keys
optional; `advice`/`nextScenario` are language-to-string dicts passed on
unresolved by the renderer. -/
structure FeedbackData where
  isCorrect : Option Bool
  advice : Option (List (String × String))
  nextScenario : Option (List (String × String))
deriving Repr, DecidableEq

/-- A choice of a story node. `id` and `text` are accessed unconditionally
in the source (`c["id"]`, `c["text"]`), so they are required fields. -/
structure ChoiceData where
  id : String
  text : TextValue
  impact : Option Impact
  next_node : NextNodeField
  feedback : Option FeedbackData
deriving Repr, DecidableEq

/-- One dialogue line of a node; every key is read with `.get` in the
source, so all fields are optional. -/
structure DialogueData where
  speaker : Option String
  position : Option String
  text : Option TextValue
  emotion : Option String
deriving Repr, DecidableEq

/-- A story node. `node_id` is required (used as the index key at load
time); `choices` is required (`current_node["choices"]` in `make_choice`);
`sequence` is optional (`node.get("sequence")`); absent `dialogue` and an
empty dialogue list are indistinguishable in the source
(`node.get("dialogue", [])` followed by a truthiness test), so `dialogue`
is a plain list. -/
structure NodeData where
  node_id : String
  sequence : Option Int
  narrative : Option TextValue
  scene : Option String
  dialogue : List DialogueData
  speaker : Option String
  choices : List ChoiceData
deriving Repr, DecidableEq

/-- The `initial_state` block of a path, every field optional. -/
structure InitialState where
  savings : Option Int
  debt : Option Int
  confidence : Option Int
deriving Repr, DecidableEq

/-- A story path. `path_id` and `nodes` are required (accessed
unconditionally at load time); the remaining fields are read with `.get`. -/
structure PathData where
  path_id : String
  title : Option TextValue
  description : Option TextValue
  protagonist : Option TextValue
  initial_state : Option InitialState
  nodes : List NodeData
deriving Repr, DecidableEq

/-- A catalog character (`characters` map entry). `name`, `role` and
`avatar` are accessed unconditionally by the renderer; `description` and
`personality` with `.get`. -/
structure CharacterData where
  name : TextValue
  role : TextValue
  avatar : String
  description : Option TextValue
  personality : Option TextValue
deriving Repr, DecidableEq

/-- The loaded story catalog: `StoryEngine._paths` and
`StoryEngine._characters` as association lists in insertion order with
distinct keys (Python dicts). `StoryEngine._nodes` is derived on demand
(see `get_node`). -/
structure Catalog where
  paths : List (String × PathData)
  characters : List (String × CharacterData)
deriving Repr, DecidableEq

/-- `StoryEngine._paths.get(path_id)`. -/
def getPath (cat : Catalog) (pid : String) : Option PathData :=
  (cat.paths.find? (fun p => p.1 == pid)).map Prod.snd

/-- Lookup in the per-path node index `StoryEngine._nodes[path_id]`.  The
index is a dict built by iterating the node list and writing
`index[node["node_id"]] = node`, so with duplicate node ids the last one
wins: model the dict lookup as last-match over the list. -/
def getNodeIn (nodes : List NodeData) (nid : String) : Option NodeData :=
  nodes.foldl (fun acc n => if n.node_id == nid then some n else acc) none

/-- `StoryEngine.get_node(path_id, node_id)`:
`cls._nodes.get(path_id, \x7b\x7d).get(node_id)`. -/
def get_node (cat : Catalog) (pid : String) (nid : String) : Option NodeData :=
  match getPath cat pid with
  | some p => getNodeIn p.nodes nid
  | none => none

/-- `StoryEngine.get_next_node(path_id, current_sequence)`: the first node
in the path's node list whose `sequence` key is present and equals
`current_sequence + 1` (`node.get("sequence") == next_seq`; an absent
sequence, Python `None`, never equals an int). -/
def get_next_node (cat : Catalog) (pid : String) (current_sequence : Int) :
    Option NodeData :=
  match getPath cat pid with
  | some p => p.nodes.find? (fun n => n.sequence == some (current_sequence + 1))
  | none => none

/-- First element of the node list minimising `node.get("sequence", 0)`,
keeping the earliest among ties: this is `sorted(nodes, key)[0]` for
Python's stable sort. -/
def minBySeq (nodes : List NodeData) : Option NodeData :=
  nodes.foldl
    (fun acc n =>
      match acc with
      | none => some n
      | some m => if n.sequence.getD 0 < m.sequence.getD 0 then some n else some m)
    none

/-- `StoryEngine.get_start_node(path_id)`: `None` when the path is unknown
or has an empty node index (`if not nodes`), else the node with the
minimum `sequence` (missing sequence keys default to 0). -/
def get_start_node (cat : Catalog) (pid : String) : Option NodeData :=
  match getPath cat pid with
  | none => none
  | some p => if p.nodes.isEmpty then none else minBySeq p.nodes

/-- `StoryEngine.get_character(character_id)`. -/
def get_character (cat : Catalog) (cid : String) : Option CharacterData :=
  (cat.characters.find? (fun c => c.1 == cid)).map Prod.snd

/-- One entry of `get_available_paths`: `path_id`, `title` and
`description` are strings (resolved), while `protagonist` is passed
through raw (`p_data.get("protagonist", "")`), so it keeps the
`TextValue` shape it has in the catalog. -/
structure PathEntry where
  path_id : String
  title : String
  description : String
  protagonist : TextValue
deriving Repr, DecidableEq

/-- `StoryEngine.get_available_paths(language)`: one entry per path in the
catalog, with `title` defaulting to the path id and `description` to the
empty string before resolution, and `protagonist` defaulting to the empty
string and not resolved. -/
def get_available_paths (cat : Catalog) (language : String) : List PathEntry :=
  cat.paths.map (fun p =>
    { path_id := p.1
      title := resolve_text (some (p.2.title.getD (.str p.1))) language
      description := resolve_text (some (p.2.description.getD (.str ""))) language
      protagonist := p.2.protagonist.getD (.str "") })

/-! ## Database model

Modelled from the spec: the `GameSession` and `GameHistoryLog` ORM
declarations are imported by the service but their class definitions are
not part of the provided sources; their row shapes follow spec §3
("GameSession", "GameHistoryLog entry") and the columns the service code
reads and writes.  Primary keys are autoincrement integers, so History
entries form a stack ordered by `id` (spec §3: "entries form a stack
ordered by insertion"). -/

/-- A `game_sessions` row: one session per user with the current path, the
current node (or the sentinels "start"/"end") and the three resources. -/
structure GameSession where
  id : Nat
  user_id : Nat
  current_path : String
  current_node_id : String
  savings : Int
  debt : Int
  confidence : Int
deriving Repr, DecidableEq

/-- The snapshot serialized into `GameHistoryLog.previous_stats` by
`make_choice` (a JSON object; `rollback` reads each key with `.get`, so
every field is optional here). -/
structure PrevStats where
  savings : Option Int
  debt : Option Int
  confidence : Option Int
  current_node_id : Option String
deriving Repr, DecidableEq

/-- A `game_history_log` row.  `previous_stats` is a serialized snapshot;
`none` models an empty/missing serialized string (`rollback` falls back to
an empty dict in that case). -/
structure GameHistoryLog where
  id : Nat
  session_id : Nat
  node_id : String
  choice_id : String
  previous_stats : Option PrevStats
deriving Repr, DecidableEq

/-- A `user_gamification` row (only the columns `_award_xp` touches). -/
structure UserGamification where
  user_id : Nat
  total_xp : Int
  current_level : Int
deriving Repr, DecidableEq

/-- The database, with rows in insertion order and the next autoincrement
primary key for sessions and history entries. -/
structure Db where
  sessions : List GameSession
  history : List GameHistoryLog
  gamification : List UserGamification
  nextSessionId : Nat
  nextLogId : Nat
deriving Repr, DecidableEq

/-- `db.query(GameSession).filter(GameSession.user_id == user_id).first()`. -/
def findSession (db : Db) (uid : Nat) : Option GameSession :=
  db.sessions.find? (fun s => s.user_id == uid)

/-- Write back a mutated session object: SQLAlchemy mutates the row
`.first()` returned, i.e. the first row with this `user_id`. -/
def replaceFirstSession : List GameSession → Nat → GameSession → List GameSession
  | [], _, _ => []
  | s :: rest, uid, s' =>
      if s.user_id == uid then s' :: rest else s :: replaceFirstSession rest uid s'

/-- Step function for the maximum-`id` fold below: keep the entry with the
larger primary key. -/
def pickNewer (acc : Option GameHistoryLog) (l : GameHistoryLog) :
    Option GameHistoryLog :=
  match acc with
  | none => some l
  | some m => if m.id < l.id then some l else some m

/-- `db.query(GameHistoryLog).filter(session_id == sid).order_by(id.desc()).first()`:
the matching entry with the greatest primary key. -/
def latestLog (logs : List GameHistoryLog) (sid : Nat) : Option GameHistoryLog :=
  (logs.filter (fun l => l.session_id == sid)).foldl pickNewer none

/-- Well-formedness of a database as the ORM maintains it: at most one
session per user, distinct session primary keys below the autoincrement
counter, distinct history primary keys below theirs, and history rows
referencing existing sessions. -/
def DbWf (db : Db) : Prop :=
  (db.sessions.map (fun s => s.user_id)).Nodup ∧
  (db.sessions.map (fun s => s.id)).Nodup ∧
  (∀ s ∈ db.sessions, s.id < db.nextSessionId) ∧
  (∀ l ∈ db.history, l.id < db.nextLogId) ∧
  (∀ l ∈ db.history, ∃ s ∈ db.sessions, s.id = l.session_id)

instance : DecidablePred DbWf := fun db => by
  unfold DbWf
  infer_instance

/-! ## Rendered response types (the Pydantic schemas of `game_service.py`) -/

/-- `ChoiceFeedback` response schema. -/
structure RChoiceFeedback where
  isCorrect : Bool
  advice : List (String × String)
  nextScenario : List (String × String)
deriving Repr, DecidableEq

/-- `Choice` response schema (`cost` keeps its Pydantic default 0: the
builder never passes it). -/
structure RChoice where
  id : String
  text : String
  cost : Int
  feedback : Option RChoiceFeedback
deriving Repr, DecidableEq

/-- `Character` response schema. -/
structure RCharacter where
  id : String
  name : String
  role : String
  avatar : String
  description : Option String
  personality : Option String
deriving Repr, DecidableEq

/-- `DialogueLine` response schema. -/
structure RDialogueLine where
  speaker : String
  position : String
  text : String
  emotion : String
deriving Repr, DecidableEq

/-- `StoryNode` response schema. -/
structure RStoryNode where
  id : String
  text : Option String
  scene : Option String
  dialogue : Option (List RDialogueLine)
  choices : List RChoice
  speaker : Option RCharacter
  characters : Option (List RCharacter)
deriving Repr, DecidableEq

/-- `GameState` response schema. -/
structure GameState where
  savings : Int
  debt : Int
  confidence : Int
deriving Repr, DecidableEq

/-- `StoryResponse` response schema (`warning` is never set by the
modelled operations). -/
structure StoryResponse where
  node : RStoryNode
  state : GameState
  warning : Option String
deriving Repr, DecidableEq

/-- `RollbackResponse` response schema. -/
structure RollbackResponse where
  message : String
  restored_node : String
deriving Repr, DecidableEq

/-! ## Response renderer (`GameService._build_response`) -/

/-- Placeholder substitution on a rendered text: replace the literal
tokens `\x7bsavings\x7d`, `\x7bdebt\x7d`, `\x7bconfidence\x7d` with the
session's current values. -/
def substStats (session : GameSession) (txt : String) : String :=
  ((txt.replace "\x7bsavings\x7d" (toString session.savings)).replace
      "\x7bdebt\x7d" (toString session.debt)).replace
    "\x7bconfidence\x7d" (toString session.confidence)

/-- Build one `ChoiceFeedback` from a feedback block, with the source's
`.get` defaults. -/
def buildFeedback (f : FeedbackData) : RChoiceFeedback :=
  { isCorrect := f.isCorrect.getD false
    advice := f.advice.getD [("english", ""), ("hindi", "")]
    nextScenario := f.nextScenario.getD [("english", ""), ("hindi", "")] }

/-- Build one rendered choice.  `if c.get("feedback"):` is a Python
truthiness test, so an absent block and an empty dict (all keys absent)
both yield no feedback. -/
def buildChoice (language : String) (c : ChoiceData) : RChoice :=
  { id := c.id
    text := resolve_text (some c.text) language
    cost := 0
    feedback :=
      match c.feedback with
      | some f =>
          if f.isCorrect.isNone && f.advice.isNone && f.nextScenario.isNone
          then none
          else some (buildFeedback f)
      | none => none }

/-- Resolve a character id into a rendered `Character`; `none` when the id
is not in the catalog (the source then skips the character). -/
def buildCharacter (cat : Catalog) (language : String) (cid : String) :
    Option RCharacter :=
  match get_character cat cid with
  | none => none
  | some cdata =>
      some
        { id := cid
          name := resolve_text (some cdata.name) language
          role := resolve_text (some cdata.role) language
          avatar := cdata.avatar
          description := some (resolve_text cdata.description language)
          personality := some (resolve_text cdata.personality language) }

/-- Truthy `speaker` ids of the dialogue lines, in order of appearance
(`d.get("speaker")` with a truthiness filter). -/
def truthySpeakers (ds : List DialogueData) : List String :=
  ds.filterMap (fun d =>
    match d.speaker with
    | some s => if s == "" then none else some s
    | none => none)

/-- First-occurrence deduplication.  The source collects the speaker ids
into a Python `set` and iterates it (arbitrary order); the embedding fixes
first-appearance order as the deterministic representative. -/
def dedupFirst (l : List String) : List String :=
  l.foldl (fun acc x => if acc.contains x then acc else acc ++ [x]) []

/-- `GameService._build_response(node, session, language)`. -/
def build_response (cat : Catalog) (node : NodeData) (session : GameSession)
    (language : String) : StoryResponse :=
  let choices_list := node.choices.map (buildChoice language)
  let speaker_char :=
    match node.speaker with
    | some sid => if sid == "" then none else buildCharacter cat language sid
    | none => none
  let chars_list : Option (List RCharacter) :=
    if node.dialogue.isEmpty then none
    else some ((dedupFirst (truthySpeakers node.dialogue)).filterMap
      (buildCharacter cat language))
  let narrative0 := resolve_text node.narrative language
  let narrative :=
    if narrative0 == "" then narrative0 else substStats session narrative0
  let dialogue_lines : Option (List RDialogueLine) :=
    if node.dialogue.isEmpty then none
    else some (node.dialogue.map (fun d =>
      { speaker := d.speaker.getD ""
        position := d.position.getD "left"
        text := substStats session (resolve_text d.text language)
        emotion := d.emotion.getD "neutral" }))
  { node :=
      { id := node.node_id
        text := if narrative == "" then none else some narrative
        scene := node.scene
        dialogue := dialogue_lines
        choices := choices_list
        speaker := speaker_char
        characters := chars_list }
    state :=
      { savings := session.savings
        debt := session.debt
        confidence := session.confidence }
    warning := none }

/-! ## Game session controller (`GameService`) -/

/-- The synthetic terminal view `get_current_state` returns when the
current node cannot be resolved: node id "end", text "Story Completed!",
no choices, carrying the session's resources. -/
def endResponse (session : GameSession) : StoryResponse :=
  { node :=
      { id := "end"
        text := some "Story Completed!"
        scene := none
        dialogue := none
        choices := []
        speaker := none
        characters := none }
    state :=
      { savings := session.savings
        debt := session.debt
        confidence := session.confidence }
    warning := none }

/-- Initial resources for a path:
`path_data.get("initial_state", \x7b\x7d) if path_data else \x7b\x7d`
followed by `.get("savings", 0)`, `.get("debt", 0)`,
`.get("confidence", 50)`. -/
def initialStats (cat : Catalog) (pid : String) : Int × Int × Int :=
  match getPath cat pid with
  | some p =>
      match p.initial_state with
      | some i => (i.savings.getD 0, i.debt.getD 0, i.confidence.getD 50)
      | none => (0, 0, 50)
  | none => (0, 0, 50)

/-- The body of `get_current_state` after the session is fetched or
auto-provisioned (source lines 141-156): resolve the sentinel "start" to
the path's actual start node and persist that resolution, fall back to the
synthetic terminal view when the node cannot be resolved, else render. -/
def getStateWith (cat : Catalog) (db : Db) (uid : Nat) (session : GameSession)
    (language : String) : StoryResponse × Db :=
  if session.current_node_id == "start" then
    match get_start_node cat session.current_path with
    | some n =>
        let s' := { session with current_node_id := n.node_id }
        (build_response cat n s' language,
         { db with sessions := replaceFirstSession db.sessions uid s' })
    | none => (endResponse session, db)
  else
    match get_node cat session.current_path session.current_node_id with
    | some n => (build_response cat n session language, db)
    | none => (endResponse session, db)

/-- `GameService.get_current_state(db, user_id, language)`: auto-provision
a session on the fallback path "farming" when the user has none, then
render the current node via `getStateWith`. -/
def get_current_state (cat : Catalog) (db : Db) (uid : Nat)
    (language : String) : StoryResponse × Db :=
  match findSession db uid with
  | some session => getStateWith cat db uid session language
  | none =>
      let inits := initialStats cat "farming"
      let s : GameSession :=
        { id := db.nextSessionId
          user_id := uid
          current_path := "farming"
          current_node_id := "start"
          savings := inits.1
          debt := inits.2.1
          confidence := inits.2.2 }
      getStateWith cat
        { db with
            sessions := db.sessions ++ [s]
            nextSessionId := db.nextSessionId + 1 }
        uid s language

/-- The path id `set_path` actually uses: the requested one when the
catalog knows it, else the fallback "farming" (`if not path_data`). -/
def spPid (cat : Catalog) (path_id : String) : String :=
  match getPath cat path_id with
  | some _ => path_id
  | none => "farming"

/-- The database as `set_path` leaves it right before its final
`get_current_state` call (source lines 96-117): session reset to the
chosen path at the sentinel "start" with the path's initial resources, the
session's history deleted; or a fresh such session when none existed. -/
def spDb (cat : Catalog) (db : Db) (uid : Nat) (path_id : String) : Db :=
  let pid := spPid cat path_id
  let inits := initialStats cat pid
  match findSession db uid with
  | some s =>
      { db with
          sessions :=
            replaceFirstSession db.sessions uid
              { s with
                  current_path := pid
                  current_node_id := "start"
                  savings := inits.1
                  debt := inits.2.1
                  confidence := inits.2.2 }
          history := db.history.filter (fun l => !(l.session_id == s.id)) }
  | none =>
      { db with
          sessions :=
            db.sessions ++
              [{ id := db.nextSessionId
                 user_id := uid
                 current_path := pid
                 current_node_id := "start"
                 savings := inits.1
                 debt := inits.2.1
                 confidence := inits.2.2 }]
          nextSessionId := db.nextSessionId + 1 }

/-- `GameService.set_path(db, user_id, path_id, language)`: substitute the
fallback path "farming" for an unknown path id, reset the session (or
create it) on the sentinel "start" with the path's initial resources,
delete the existing session's history, and return `get_current_state`. -/
def set_path (cat : Catalog) (db : Db) (uid : Nat) (path_id : String)
    (language : String) : StoryResponse × Db :=
  get_current_state cat (spDb cat db uid path_id) uid language

/-- `GameService._award_xp` touches only the gamification table: bump the
user's `total_xp`, creating the row (`current_level = 1`) if absent. -/
def bumpXp (g : List UserGamification) (uid : Nat) (xp : Int) :
    List UserGamification :=
  match g.find? (fun r => r.user_id == uid) with
  | some _ =>
      g.map (fun r =>
        if r.user_id == uid then { r with total_xp := r.total_xp + xp } else r)
  | none => g ++ [{ user_id := uid, total_xp := xp, current_level := 1 }]

/-- `GameService._award_xp(db, user_id, xp)`. -/
def award_xp (db : Db) (uid : Nat) (xp : Int) : Db :=
  { db with gamification := bumpXp db.gamification uid xp }

/-- The node-advancement step of `make_choice` (source lines 192-200).
`"next_node" in selected and selected["next_node"]` is a Python
truthiness test, so an explicit empty-string target falls through to the
sequence-based branch just like an absent key; an explicit `null` moves
straight to the sentinel "end". -/
def advanceNode (cat : Catalog) (pid : String) (current_node : NodeData)
    (selected : ChoiceData) : String :=
  match selected.next_node with
  | .id s =>
      if s == "" then
        match get_next_node cat pid (current_node.sequence.getD 0) with
        | some n => n.node_id
        | none => "end"
      else
        match get_node cat pid s with
        | some n => n.node_id
        | none => "end"
  | .null => "end"
  | .absent =>
      match get_next_node cat pid (current_node.sequence.getD 0) with
      | some n => n.node_id
      | none => "end"

/-- The choice `make_choice` would apply: the session's current node must
resolve in the catalog and carry a choice with the requested id
(`next((c for c in current_node["choices"] if c["id"] == choice_id), None)`). -/
def selectedAt (cat : Catalog) (db : Db) (uid : Nat) (choice_id : String) :
    Option ChoiceData :=
  match findSession db uid with
  | none => none
  | some s =>
      match get_node cat s.current_path s.current_node_id with
      | none => none
      | some node => node.choices.find? (fun c => c.id == choice_id)

/-- The history entry `make_choice` pushes (source lines 172-184): the
node the user was at, the chosen choice id, and the snapshot of the
resources and node as they stood before the choice. -/
def mcLog (db : Db) (s : GameSession) (choice_id : String) : GameHistoryLog :=
  { id := db.nextLogId
    session_id := s.id
    node_id := s.current_node_id
    choice_id := choice_id
    previous_stats :=
      some
        { savings := some s.savings
          debt := some s.debt
          confidence := some s.confidence
          current_node_id := some s.current_node_id } }

/-- The session as `make_choice` leaves it: impact deltas added to the
resources (`.get(key, 0)` defaults, no clamping) and the node advanced. -/
def mcSession (cat : Catalog) (s : GameSession) (node : NodeData)
    (c : ChoiceData) : GameSession :=
  let impact := c.impact.getD ⟨none, none, none⟩
  { s with
      savings := s.savings + impact.savings.getD 0
      debt := s.debt + impact.debt.getD 0
      confidence := s.confidence + impact.confidence.getD 0
      current_node_id := advanceNode cat s.current_path node c }

/-- The database as `make_choice` leaves it right before its final
`get_current_state` call (source lines 172-207): history entry pushed,
session mutated, and 50 XP awarded when the new node is the sentinel
"end". -/
def mcDb (cat : Catalog) (db : Db) (uid : Nat) (choice_id : String)
    (s : GameSession) (node : NodeData) (c : ChoiceData) : Db :=
  let s' := mcSession cat s node c
  let db1 :=
    { db with
        sessions := replaceFirstSession db.sessions uid s'
        history := db.history ++ [mcLog db s choice_id]
        nextLogId := db.nextLogId + 1 }
  if s'.current_node_id == "end" then award_xp db1 uid 50 else db1

/-- `GameService.make_choice(db, user_id, choice_id, language)`: fall
through to `get_current_state` when the session, node or choice is
missing; otherwise push a history snapshot, apply the impact deltas,
advance the node, award 50 XP when the new node is the sentinel "end", and
return `get_current_state`. -/
def make_choice (cat : Catalog) (db : Db) (uid : Nat) (choice_id : String)
    (language : String) : StoryResponse × Db :=
  match findSession db uid with
  | none => get_current_state cat db uid language
  | some session =>
      match get_node cat session.current_path session.current_node_id with
      | none => get_current_state cat db uid language
      | some current_node =>
          match current_node.choices.find? (fun c => c.id == choice_id) with
          | none => get_current_state cat db uid language
          | some selected =>
              get_current_state cat
                (mcDb cat db uid choice_id session current_node selected)
                uid language

/-- `GameService.rollback(db, user_id)`: report "No session found" without
a session, "Cannot rollback further" on an empty stack, else restore the
snapshot of the most recent history entry and delete that entry. -/
def rollback (db : Db) (uid : Nat) : RollbackResponse × Db :=
  match findSession db uid with
  | none => ({ message := "No session found", restored_node := "" }, db)
  | some session =>
      match latestLog db.history session.id with
      | none =>
          ({ message := "Cannot rollback further"
             restored_node := session.current_node_id }, db)
      | some last_log =>
          let prev := last_log.previous_stats.getD ⟨none, none, none, none⟩
          let s' :=
            { session with
                savings := prev.savings.getD session.savings
                debt := prev.debt.getD session.debt
                confidence := prev.confidence.getD session.confidence
                current_node_id :=
                  prev.current_node_id.getD session.current_node_id }
          let db' :=
            { db with
                sessions := replaceFirstSession db.sessions uid s'
                history := db.history.filter (fun l => !(l.id == last_log.id)) }
          ({ message := "Rolled back successfully"
             restored_node := s'.current_node_id }, db')

/-! ## Derived views used by the verification -/

/-- The session as `get_current_state` leaves it: the sentinel "start" is
resolved to the path's actual start node and persisted; in every other
case the session is untouched. -/
def gcsSession (cat : Catalog) (s : GameSession) : GameSession :=
  if s.current_node_id == "start" then
    match get_start_node cat s.current_path with
    | some n => { s with current_node_id := n.node_id }
    | none => s
  else s

/-- The resource triple (savings, debt, confidence) of a user's session. -/
def resourcesOf (db : Db) (uid : Nat) : Option (Int × Int × Int) :=
  (findSession db uid).map (fun s => (s.savings, s.debt, s.confidence))

/-- One `make_choice` step, keeping only the database. -/
def stepChoice (cat : Catalog) (uid : Nat) (language : String) (db : Db)
    (cid : String) : Db :=
  (make_choice cat db uid cid language).2

/-- A sequence of choice ids applied via `make_choice`. -/
def applyChoices (cat : Catalog) (uid : Nat) (language : String) :
    Db → List String → Db
  | db, [] => db
  | db, cid :: rest =>
      applyChoices cat uid language (stepChoice cat uid language db cid) rest

/-- Every choice id of the sequence is valid when its turn comes: the
session's current node resolves and carries a choice with that id. -/
def validRun (cat : Catalog) (uid : Nat) (language : String) :
    Db → List String → Bool
  | _, [] => true
  | db, cid :: rest =>
      (selectedAt cat db uid cid).isSome &&
        validRun cat uid language (stepChoice cat uid language db cid) rest

/-- `impact.get("savings", 0)` of a choice (absent impact counts as 0). -/
def choiceSavings (c : ChoiceData) : Int :=
  (c.impact.getD ⟨none, none, none⟩).savings.getD 0

/-- `impact.get("debt", 0)` of a choice. -/
def choiceDebt (c : ChoiceData) : Int :=
  (c.impact.getD ⟨none, none, none⟩).debt.getD 0

/-- `impact.get("confidence", 0)` of a choice. -/
def choiceConfidence (c : ChoiceData) : Int :=
  (c.impact.getD ⟨none, none, none⟩).confidence.getD 0

/-- Sum of the impact deltas of the choices selected along a run. -/
def runImpact (cat : Catalog) (uid : Nat) (language : String) :
    Db → List String → Int × Int × Int
  | _, [] => (0, 0, 0)
  | db, cid :: rest =>
      let hd :=
        match selectedAt cat db uid cid with
        | some c => (choiceSavings c, choiceDebt c, choiceConfidence c)
        | none => ((0 : Int), (0 : Int), (0 : Int))
      let tl := runImpact cat uid language (stepChoice cat uid language db cid) rest
      (hd.1 + tl.1, hd.2.1 + tl.2.1, hd.2.2 + tl.2.2)

/-! ## Concrete fixtures for witnesses and counterexamples -/

/-- Choice with an explicit existing target and partial impact. -/
def cSave : ChoiceData :=
  ⟨"c1", .str "save", some ⟨some (-20), none, some 5⟩, .id "n2", none⟩

/-- Choice with no `next_node` key (sequence-based advancement). -/
def cSpend : ChoiceData :=
  ⟨"c2", .str "spend", some ⟨some (-200), some 10, none⟩, .absent, none⟩

/-- Choice with an explicit `null` target (author-declared terminal). -/
def cQuit : ChoiceData := ⟨"c3", .str "quit", none, .null, none⟩

/-- Choice with an explicit empty-string target (falsy in Python). -/
def cEmptyTarget : ChoiceData := ⟨"c4", .str "empty", none, .id "", none⟩

/-- First fixture node, sequence 1. -/
def nodeA : NodeData :=
  ⟨"n1", some 1, none, none, [], none, [cSave, cSpend, cQuit, cEmptyTarget]⟩

/-- Terminal choice of the second fixture node. -/
def cDone : ChoiceData := ⟨"c1", .str "ok", none, .null, none⟩

/-- Second fixture node, sequence 2. -/
def nodeB : NodeData := ⟨"n2", some 2, none, none, [], none, [cDone]⟩

/-- Fixture path "farming" with initial resources (100, 0, 50). -/
def farmPath : PathData :=
  ⟨"farming", none, none, none, some ⟨some 100, some 0, some 50⟩,
    [nodeA, nodeB]⟩

/-- Fixture catalog with the single path "farming". -/
def catW : Catalog := ⟨[("farming", farmPath)], []⟩

/-- Fixture session of user 1 sitting at node "n1". -/
def sessW : GameSession := ⟨1, 1, "farming", "n1", 100, 0, 50⟩

/-- Fixture database: one session, empty history and gamification. -/
def dbW : Db := ⟨[sessW], [], [], 2, 1⟩

/-- Fixture session whose current node does not resolve in the catalog. -/
def staleSess : GameSession := ⟨1, 1, "farming", "ghost", 7, 8, 9⟩

/-- Fixture database holding only the stale session. -/
def dbStale : Db := ⟨[staleSess], [], [], 2, 1⟩

/-- Empty fixture database. -/
def dbEmpty : Db := ⟨[], [], [], 1, 1⟩

/-- Fixture path whose `protagonist` is a bilingual mapping. -/
def biPath : PathData :=
  ⟨"p", some (.dict [("english", "T"), ("hindi", "S")]), some (.str "D"),
    some (.dict [("english", "A"), ("hindi", "B")]), none, []⟩

/-- Fixture catalog holding only `biPath`. -/
def catBi : Catalog := ⟨[("p", biPath)], []⟩

/-! ## Helper lemmas -/

theorem findSession_user_id {db : Db} {uid : Nat} {s : GameSession}
    (h : findSession db uid = some s) : s.user_id = uid := by
  have := List.find?_some h
  simpa using this

theorem find?_replaceFirst (l : List GameSession) (uid : Nat)
    (t : GameSession) (ht : t.user_id = uid) (x : GameSession)
    (h : l.find? (fun s => s.user_id == uid) = some x) :
    (replaceFirstSession l uid t).find? (fun s => s.user_id == uid) = some t := by
  induction l with
  | nil => simp [List.find?] at h
  | cons a l ih =>
      by_cases ha : a.user_id = uid
      · simp [replaceFirstSession, ha, List.find?, ht]
      · have ha' : (a.user_id == uid) = false := by simpa using ha
        rw [List.find?_cons_of_neg _ (by simp [ha'])] at h
        simpa [replaceFirstSession, ha', List.find?_cons_of_neg, ha]
          using ih h

theorem findSession_replace {db : Db} {uid : Nat} {t x : GameSession}
    (ht : t.user_id = uid) (h : findSession db uid = some x)
    (rest : List GameHistoryLog → List GameHistoryLog)
    (g : List UserGamification) (n1 n2 : Nat) :
    findSession
      { sessions := replaceFirstSession db.sessions uid t
        history := rest db.history
        gamification := g
        nextSessionId := n1
        nextLogId := n2 } uid = some t := by
  unfold findSession at *
  exact find?_replaceFirst _ _ _ ht _ h

theorem getNodeIn_aux (nid : String) :
    ∀ (nodes : List NodeData) (acc : Option NodeData),
      (∀ m, acc = some m → m.node_id = nid) →
      ∀ x,
        nodes.foldl (fun acc n => if n.node_id == nid then some n else acc)
            acc = some x →
        x.node_id = nid := by
  intro nodes
  induction nodes with
  | nil => intro acc hacc x hx; exact hacc x hx
  | cons a l ih =>
      intro acc hacc x hx
      simp only [List.foldl] at hx
      refine ih _ ?_ x hx
      intro m hm
      cases hid : a.node_id == nid
      · simp [hid] at hm
        exact hacc m hm
      · simp [hid] at hm
        subst hm
        simpa using hid

theorem getNodeIn_id (nodes : List NodeData) (nid : String) (n : NodeData)
    (h : getNodeIn nodes nid = some n) : n.node_id = nid := by
  unfold getNodeIn at h
  exact getNodeIn_aux nid nodes none (by intro m hm; cases hm) n h

theorem get_node_id {cat : Catalog} {pid nid : String} {n : NodeData}
    (h : get_node cat pid nid = some n) : n.node_id = nid := by
  unfold get_node at h
  cases hp : getPath cat pid with
  | none => rw [hp] at h; cases h
  | some p => rw [hp] at h; exact getNodeIn_id _ _ _ h

theorem foldl_pickNewer_cases (l : List GameHistoryLog) :
    ∀ acc, l.foldl pickNewer acc = acc ∨
      ∃ m ∈ l, l.foldl pickNewer acc = some m := by
  induction l with
  | nil => intro acc; left; rfl
  | cons a l ih =>
      intro acc
      have hstep : (a :: l).foldl pickNewer acc = l.foldl pickNewer (pickNewer acc a) := rfl
      rcases ih (pickNewer acc a) with h | ⟨m, hm, h⟩
      · rw [hstep, h]
        cases acc with
        | none => right; exact ⟨a, by simp, rfl⟩
        | some m0 =>
            by_cases hlt : m0.id < a.id
            · right; exact ⟨a, by simp, by simp [pickNewer, hlt]⟩
            · left; simp [pickNewer, hlt]
      · right
        exact ⟨m, by simp [hm], by rw [hstep]; exact h⟩

theorem latestLog_append_fresh (logs : List GameHistoryLog)
    (log : GameHistoryLog) (sid : Nat) (hsid : log.session_id = sid)
    (hfresh : ∀ l ∈ logs, l.id < log.id) :
    latestLog (logs ++ [log]) sid = some log := by
  unfold latestLog
  rw [List.filter_append, List.foldl_append]
  have hl : List.filter (fun l => l.session_id == sid) [log] = [log] := by
    simp [hsid]
  rw [hl]
  rcases foldl_pickNewer_cases
      (logs.filter (fun l => l.session_id == sid)) none with h | ⟨m, hm, h⟩
  · simp [h, pickNewer]
  · have hmlt : m.id < log.id := hfresh m (List.mem_of_mem_filter hm)
    simp [h, pickNewer, hmlt]

theorem getStateWith_snd (cat : Catalog) (db : Db) (uid : Nat)
    (s : GameSession) (language : String) :
    (getStateWith cat db uid s language).2 =
      if s.current_node_id == "start" then
        match get_start_node cat s.current_path with
        | some n =>
            { db with
                sessions :=
                  replaceFirstSession db.sessions uid
                    { s with current_node_id := n.node_id } }
        | none => db
      else db := by
  unfold getStateWith
  by_cases hs : (s.current_node_id == "start") = true
  · simp only [hs, if_true]
    cases get_start_node cat s.current_path <;> rfl
  · simp only [eq_false_of_ne_true hs, if_false]
    cases get_node cat s.current_path s.current_node_id <;> rfl

theorem getStateWith_frame (cat : Catalog) (db : Db) (uid : Nat)
    (s : GameSession) (language : String) :
    (getStateWith cat db uid s language).2.history = db.history ∧
    (getStateWith cat db uid s language).2.gamification = db.gamification ∧
    (getStateWith cat db uid s language).2.nextLogId = db.nextLogId ∧
    (getStateWith cat db uid s language).2.nextSessionId = db.nextSessionId := by
  rw [getStateWith_snd]
  by_cases hs : (s.current_node_id == "start") = true
  · simp only [hs, if_true]
    cases get_start_node cat s.current_path <;> exact ⟨rfl, rfl, rfl, rfl⟩
  · simp only [eq_false_of_ne_true hs, if_false]
    exact ⟨rfl, rfl, rfl, rfl⟩

theorem gcsSession_frame (cat : Catalog) (s : GameSession) :
    (gcsSession cat s).id = s.id ∧
    (gcsSession cat s).user_id = s.user_id ∧
    (gcsSession cat s).current_path = s.current_path ∧
    (gcsSession cat s).savings = s.savings ∧
    (gcsSession cat s).debt = s.debt ∧
    (gcsSession cat s).confidence = s.confidence := by
  unfold gcsSession
  by_cases hs : (s.current_node_id == "start") = true
  · simp only [hs, if_true]
    cases get_start_node cat s.current_path <;> exact ⟨rfl, rfl, rfl, rfl, rfl, rfl⟩
  · simp only [eq_false_of_ne_true hs, if_false]
    exact ⟨rfl, rfl, rfl, rfl, rfl, rfl⟩

theorem getStateWith_findSession (cat : Catalog) (db : Db) (uid : Nat)
    {s : GameSession} (language : String)
    (h : findSession db uid = some s) :
    findSession (getStateWith cat db uid s language).2 uid =
      some (gcsSession cat s) := by
  have hu : s.user_id = uid := findSession_user_id h
  rw [getStateWith_snd]
  unfold gcsSession
  by_cases hs : (s.current_node_id == "start") = true
  · simp only [hs, if_true]
    cases hn : get_start_node cat s.current_path with
    | some n =>
        unfold findSession at h ⊢
        exact find?_replaceFirst _ _ _ (by simpa using hu) _ h
    | none => exact h
  · simp only [eq_false_of_ne_true hs, if_false]
    exact h

theorem get_current_state_of_find (cat : Catalog) (db : Db) (uid : Nat)
    {s : GameSession} (language : String)
    (h : findSession db uid = some s) :
    get_current_state cat db uid language = getStateWith cat db uid s language := by
  unfold get_current_state
  rw [h]

theorem award_xp_frame (db : Db) (uid : Nat) (xp : Int) :
    (award_xp db uid xp).sessions = db.sessions ∧
    (award_xp db uid xp).history = db.history ∧
    (award_xp db uid xp).nextLogId = db.nextLogId ∧
    (award_xp db uid xp).nextSessionId = db.nextSessionId := by
  exact ⟨rfl, rfl, rfl, rfl⟩

theorem latestLog_none (logs : List GameHistoryLog) (sid : Nat)
    (h : ∀ l ∈ logs, ¬(l.session_id = sid)) : latestLog logs sid = none := by
  unfold latestLog
  have he : logs.filter (fun l => l.session_id == sid) = [] := by
    rw [List.filter_eq_nil_iff]
    intro a ha
    simpa using h a ha
  rw [he]
  rfl

theorem filter_fresh_id (logs : List GameHistoryLog) (N : Nat)
    (h : ∀ l ∈ logs, l.id < N) :
    logs.filter (fun l => !(l.id == N)) = logs := by
  rw [List.filter_eq_self]
  intro a ha
  simpa using Nat.ne_of_lt (h a ha)

theorem mcDb_history (cat : Catalog) (db : Db) (uid : Nat) (cid : String)
    (s : GameSession) (node : NodeData) (c : ChoiceData) :
    (mcDb cat db uid cid s node c).history = db.history ++ [mcLog db s cid] := by
  unfold mcDb
  dsimp only
  split <;> rfl

theorem mcDb_sessions (cat : Catalog) (db : Db) (uid : Nat) (cid : String)
    (s : GameSession) (node : NodeData) (c : ChoiceData) :
    (mcDb cat db uid cid s node c).sessions =
      replaceFirstSession db.sessions uid (mcSession cat s node c) := by
  unfold mcDb
  dsimp only
  split <;> rfl

theorem mcDb_nextLogId (cat : Catalog) (db : Db) (uid : Nat) (cid : String)
    (s : GameSession) (node : NodeData) (c : ChoiceData) :
    (mcDb cat db uid cid s node c).nextLogId = db.nextLogId + 1 := by
  unfold mcDb
  dsimp only
  split <;> rfl

theorem mcDb_gamification (cat : Catalog) (db : Db) (uid : Nat) (cid : String)
    (s : GameSession) (node : NodeData) (c : ChoiceData) :
    (mcDb cat db uid cid s node c).gamification =
      if (mcSession cat s node c).current_node_id == "end"
      then bumpXp db.gamification uid 50
      else db.gamification := by
  unfold mcDb
  dsimp only
  by_cases hend : ((mcSession cat s node c).current_node_id == "end") = true <;>
    simp [hend, award_xp]

theorem mcDb_findSession (cat : Catalog) (db : Db) (uid : Nat) (cid : String)
    {s : GameSession} (node : NodeData) (c : ChoiceData)
    (h : findSession db uid = some s) :
    findSession (mcDb cat db uid cid s node c) uid =
      some (mcSession cat s node c) := by
  have hu : s.user_id = uid := findSession_user_id h
  unfold findSession
  rw [mcDb_sessions]
  exact find?_replaceFirst _ _ _ hu _ h

theorem make_choice_valid_eq (cat : Catalog) (db : Db) (uid : Nat)
    (cid language : String) {s : GameSession} {node : NodeData}
    {c : ChoiceData} (h : findSession db uid = some s)
    (hn : get_node cat s.current_path s.current_node_id = some node)
    (hc : node.choices.find? (fun ch => ch.id == cid) = some c) :
    make_choice cat db uid cid language =
      get_current_state cat (mcDb cat db uid cid s node c) uid language := by
  unfold make_choice
  rw [h]
  dsimp only
  rw [hn]
  dsimp only
  rw [hc]

theorem make_choice_invalid_eq (cat : Catalog) (db : Db) (uid : Nat)
    (choice_id language : String)
    (h : selectedAt cat db uid choice_id = none) :
    make_choice cat db uid choice_id language =
      get_current_state cat db uid language := by
  unfold selectedAt at h
  unfold make_choice
  cases hf : findSession db uid with
  | none => rfl
  | some s =>
      rw [hf] at h
      dsimp only at h ⊢
      cases hn : get_node cat s.current_path s.current_node_id with
      | none => rfl
      | some node =>
          rw [hn] at h
          dsimp only at h ⊢
          rw [h]

theorem get_current_state_gamification (cat : Catalog) (db : Db) (uid : Nat)
    (language : String) :
    (get_current_state cat db uid language).2.gamification = db.gamification := by
  unfold get_current_state
  cases hf : findSession db uid with
  | some s => exact (getStateWith_frame cat db uid s language).2.1
  | none =>
      dsimp only
      exact (getStateWith_frame cat _ uid _ language).2.1

theorem get_current_state_history (cat : Catalog) (db : Db) (uid : Nat)
    (language : String) :
    (get_current_state cat db uid language).2.history = db.history := by
  unfold get_current_state
  cases hf : findSession db uid with
  | some s => exact (getStateWith_frame cat db uid s language).1
  | none =>
      dsimp only
      exact (getStateWith_frame cat _ uid _ language).1

theorem rollback_gamification (db : Db) (uid : Nat) :
    (rollback db uid).2.gamification = db.gamification := by
  unfold rollback
  cases hf : findSession db uid with
  | none => rfl
  | some s =>
      dsimp only
      cases hl : latestLog db.history s.id with
      | none => rfl
      | some lg => rfl

/-! ## Claim theorems -/

/-- C6: `resolve_text` returns, for a mapping, the entry for the requested
language when present, else the "english" entry when present, else the
string coercion of the whole mapping; a non-empty plain string is returned
unchanged regardless of language; a falsy or absent value yields the empty
string.  In particular `resolve_text(\x7benglish: "X"\x7d, "hindi") = "X"`
and `resolve_text("plain", "hindi") = "plain"`. -/
theorem C6_resolve_text (kvs : List (String × String)) (language v w s : String) :
    (lookupKey kvs language = some v →
      resolve_text (some (.dict kvs)) language = v) ∧
    (lookupKey kvs language = none → lookupKey kvs "english" = some w →
      resolve_text (some (.dict kvs)) language = w) ∧
    (lookupKey kvs language = none → lookupKey kvs "english" = none →
      resolve_text (some (.dict kvs)) language = pyDictRepr kvs) ∧
    (s ≠ "" → resolve_text (some (.str s)) language = s) ∧
    resolve_text (some (.str "")) language = "" ∧
    resolve_text none language = "" ∧
    resolve_text (some (.dict [("english", "X")])) "hindi" = "X" ∧
    resolve_text (some (.str "plain")) "hindi" = "plain" := by
  refine ⟨?_, ?_, ?_, ?_, ?_, ?_, ?_, ?_⟩
  · intro h; simp [resolve_text, h]
  · intro h1 h2; simp [resolve_text, h1, h2]
  · intro h1 h2; simp [resolve_text, h1, h2]
  · intro h
    have hb : (s == "") = false := by simpa using h
    simp [resolve_text, hb]
  · rfl
  · rfl
  · rfl
  · rfl

/-- Witness for C6 at concrete inputs: a present "hindi" key wins, and a
plain string passes through. -/
theorem C6_witness :
    resolve_text (some (.dict [("hindi", "Y")])) "hindi" = "Y" ∧
    resolve_text (some (.str "plain")) "hindi" = "plain" :=
  ⟨(C6_resolve_text [("hindi", "Y")] "hindi" "Y" "w" "plain").1 (by decide),
   (C6_resolve_text [("hindi", "Y")] "hindi" "Y" "w" "plain").2.2.2.1
     (by decide)⟩

/-- C7: when the choice id does not resolve — no session for the user, a
current node that does not resolve in the catalog, or no choice with that
id at the node — `make_choice` returns exactly what `get_current_state`
returns, on the same database: it mutates nothing beyond what
`get_current_state` itself does and surfaces no error. -/
theorem C7_invalid_choice_noop (cat : Catalog) (db : Db) (uid : Nat)
    (choice_id language : String)
    (h : selectedAt cat db uid choice_id = none) :
    make_choice cat db uid choice_id language =
      get_current_state cat db uid language :=
  make_choice_invalid_eq cat db uid choice_id language h

/-- Witness for C7: an unknown choice id at the fixture node. -/
theorem C7_witness :
    make_choice catW dbW 1 "zzz" "english" =
      get_current_state catW dbW 1 "english" :=
  C7_invalid_choice_noop catW dbW 1 "zzz" "english" (by decide)

/-- C8: `rollback` without a session reports "No session found" with an
empty restored-node identifier; with a session but an empty history stack
it reports "Cannot rollback further" with the current node id, leaves the
database entirely unchanged, and stays unchanged under any number of
repetitions. -/
theorem C8_rollback_errors (db : Db) (uid : Nat) :
    (findSession db uid = none →
      rollback db uid =
        ({ message := "No session found", restored_node := "" }, db)) ∧
    (∀ s, findSession db uid = some s → latestLog db.history s.id = none →
      rollback db uid =
        ({ message := "Cannot rollback further",
           restored_node := s.current_node_id }, db) ∧
      ∀ k, (fun d => (rollback d uid).2)^[k] db = db) := by
  constructor
  · intro h
    unfold rollback
    rw [h]
  · intro s hs hl
    have hroll :
        rollback db uid =
          ({ message := "Cannot rollback further",
             restored_node := s.current_node_id }, db) := by
      unfold rollback
      rw [hs]
      dsimp only
      rw [hl]
    refine ⟨hroll, ?_⟩
    intro k
    induction k with
    | zero => rfl
    | succ k ih =>
        rw [Function.iterate_succ_apply, hroll]
        exact ih

/-- Witness for C8: the empty database has no session for user 1; the
fixture database has a session but an empty history. -/
theorem C8_witness :
    rollback dbEmpty 1 =
      ({ message := "No session found", restored_node := "" }, dbEmpty) ∧
    rollback dbW 1 =
      ({ message := "Cannot rollback further", restored_node := "n1" }, dbW) := by
  constructor
  · exact (C8_rollback_errors dbEmpty 1).1 (by decide)
  · exact ((C8_rollback_errors dbW 1).2 sessW (by decide) (by decide)).1

/-- C10: for an existing session, `get_current_state` never modifies
savings, debt or confidence, and writes `current_node_id` only when it
resolves the sentinel "start" to the path's actual start node; when the
current node cannot be resolved it returns the synthetic terminal view
(node "end", text "Story Completed!", no choices) carrying the current
resources and writes nothing back at all (the database is unchanged, the
stale node id kept). -/
theorem C10_state_fetch_frame (cat : Catalog) (db : Db) (uid : Nat)
    (language : String) (s : GameSession)
    (hs : findSession db uid = some s) :
    (findSession (get_current_state cat db uid language).2 uid =
        some (gcsSession cat s) ∧
      (gcsSession cat s).savings = s.savings ∧
      (gcsSession cat s).debt = s.debt ∧
      (gcsSession cat s).confidence = s.confidence ∧
      (gcsSession cat s).current_path = s.current_path ∧
      (gcsSession cat s).current_node_id =
        (if s.current_node_id = "start" then
           match get_start_node cat s.current_path with
           | some n => n.node_id
           | none => s.current_node_id
         else s.current_node_id)) ∧
    (get_current_state cat db uid language).2.history = db.history ∧
    (get_current_state cat db uid language).2.gamification = db.gamification ∧
    (s.current_node_id = "start" → get_start_node cat s.current_path = none →
      get_current_state cat db uid language = (endResponse s, db)) ∧
    (s.current_node_id ≠ "start" →
      get_node cat s.current_path s.current_node_id = none →
      get_current_state cat db uid language = (endResponse s, db)) := by
  have hgcs := get_current_state_of_find cat db uid language hs
  have hframe := getStateWith_frame cat db uid s language
  have hsessframe := gcsSession_frame cat s
  refine ⟨⟨?_, hsessframe.2.2.2.1, hsessframe.2.2.2.2.1, hsessframe.2.2.2.2.2,
      hsessframe.2.2.1, ?_⟩, ?_, ?_, ?_, ?_⟩
  · rw [hgcs]
    exact getStateWith_findSession cat db uid language hs
  · by_cases hc : s.current_node_id = "start"
    · have hb : (s.current_node_id == "start") = true := by simpa using hc
      cases hsn : get_start_node cat s.current_path <;>
        simp [gcsSession, hb, hc, hsn]
    · have hb : (s.current_node_id == "start") = false := by simpa using hc
      simp [gcsSession, hb, hc]
  · rw [hgcs]; exact hframe.1
  · rw [hgcs]; exact hframe.2.1
  · intro h1 h2
    rw [hgcs]
    have hb : (s.current_node_id == "start") = true := by simpa using h1
    unfold getStateWith
    simp [hb, h2]
  · intro h1 h2
    rw [hgcs]
    have hb : (s.current_node_id == "start") = false := by simpa using h1
    unfold getStateWith
    simp [hb, h2]

/-- Witness for C10: a session whose node "ghost" does not resolve yields
the synthetic terminal view with its resources (7, 8, 9) and leaves the
database untouched. -/
theorem C10_witness :
    get_current_state catW dbStale 1 "english" = (endResponse staleSess, dbStale) ∧
    (get_current_state catW dbStale 1 "english").2.history = dbStale.history := by
  have h := C10_state_fetch_frame catW dbStale 1 "english" staleSess (by decide)
  exact ⟨h.2.2.2.2 (by decide) (by decide), h.2.1⟩

/-- C5: the experience-point award fires exactly when a valid
`make_choice` transition leaves the session's node at the sentinel "end"
(one `bumpXp` of 50 per such transition); a `make_choice` whose choice
does not resolve changes no gamification record, and neither
`get_current_state` nor `rollback` ever modifies the gamification table
(rollback in particular never reverses an award). -/
theorem C5_xp_award (cat : Catalog) (db : Db) (uid : Nat)
    (cid language : String) :
    (∀ s node c,
      findSession db uid = some s →
      get_node cat s.current_path s.current_node_id = some node →
      node.choices.find? (fun ch => ch.id == cid) = some c →
      (make_choice cat db uid cid language).2.gamification =
        (if advanceNode cat s.current_path node c = "end"
         then bumpXp db.gamification uid 50
         else db.gamification)) ∧
    (selectedAt cat db uid cid = none →
      (make_choice cat db uid cid language).2.gamification =
        db.gamification) ∧
    (∀ u, (get_current_state cat db u language).2.gamification =
      db.gamification) ∧
    (∀ u, (rollback db u).2.gamification = db.gamification) := by
  refine ⟨?_, ?_, ?_, ?_⟩
  · intro s node c hs hn hc
    rw [make_choice_valid_eq cat db uid cid language hs hn hc]
    have hf2 := mcDb_findSession cat db uid cid node c hs
    rw [get_current_state_of_find cat _ uid language hf2]
    rw [(getStateWith_frame cat _ uid _ language).2.1]
    rw [mcDb_gamification]
    have hadv : (mcSession cat s node c).current_node_id =
        advanceNode cat s.current_path node c := rfl
    rw [hadv]
    by_cases hend : advanceNode cat s.current_path node c = "end"
    · have hb : (advanceNode cat s.current_path node c == "end") = true := by
        simpa using hend
      simp [hb, hend]
    · have hb : (advanceNode cat s.current_path node c == "end") = false := by
        simpa using hend
      simp [hb, hend]
  · intro h
    rw [make_choice_invalid_eq cat db uid cid language h]
    exact get_current_state_gamification cat db uid language
  · intro u
    exact get_current_state_gamification cat db u language
  · intro u
    exact rollback_gamification db u

/-- Witness for C5: taking the terminal choice "c3" at the fixture node
awards 50 XP, creating the gamification row. -/
theorem C5_witness :
    (make_choice catW dbW 1 "c3" "english").2.gamification =
      bumpXp dbW.gamification 1 50 := by
  have h := (C5_xp_award catW dbW 1 "c3" "english").1 sessW nodeA cQuit
    (by decide) (by decide) (by decide)
  rw [h]
  have hend : advanceNode catW sessW.current_path nodeA cQuit = "end" := by decide
  simp [hend]

/-- C3 counterexample: a choice carrying the non-null, non-absent
`next_node` value `""` — which does not exist in the path — does not move
the session to "end" as the claim requires: the Python truthiness test
sends it through sequence-based advancement instead, landing on "n2". -/
theorem C3_counterexample :
    cEmptyTarget.next_node = NextNodeField.id "" ∧
    get_node catW "farming" "" = none ∧
    selectedAt catW dbW 1 "c4" = some cEmptyTarget ∧
    (findSession (make_choice catW dbW 1 "c4" "english").2 1).map
        (fun x => x.current_node_id) = some "n2" ∧
    ¬("n2" = "end") := by
  decide

/-- C3 (amended): advancement in `make_choice` follows the three rules
with the first restricted to a truthy (non-empty) explicit target — an
explicit non-null, non-empty `next_node` moves to that node when it
exists in the current path and to "end" otherwise; an explicit null moves
to "end" immediately; an absent `next_node` key, and likewise an explicit
empty-string target (falsy in Python), advance to the node whose sequence
is the current node's sequence + 1, or to "end" when no such node exists.
The final conjunct ties the rule to `make_choice` itself. -/
theorem C3_advancement_rules (cat : Catalog) (pid : String) (node : NodeData)
    (c : ChoiceData) (t : String) :
    (c.next_node = .id t → t ≠ "" →
      (∀ n, get_node cat pid t = some n → advanceNode cat pid node c = t) ∧
      (get_node cat pid t = none → advanceNode cat pid node c = "end")) ∧
    (c.next_node = .null → advanceNode cat pid node c = "end") ∧
    ((c.next_node = .absent ∨ c.next_node = .id "") →
      (∀ n, get_next_node cat pid (node.sequence.getD 0) = some n →
        advanceNode cat pid node c = n.node_id) ∧
      (get_next_node cat pid (node.sequence.getD 0) = none →
        advanceNode cat pid node c = "end")) ∧
    (∀ (db : Db) (uid : Nat) (language : String) (s : GameSession),
      findSession db uid = some s →
      s.current_path = pid →
      get_node cat pid s.current_node_id = some node →
      node.choices.find? (fun ch => ch.id == c.id) = some c →
      advanceNode cat pid node c ≠ "start" →
      (findSession (make_choice cat db uid c.id language).2 uid).map
          (fun x => x.current_node_id) =
        some (advanceNode cat pid node c)) := by
  refine ⟨?_, ?_, ?_, ?_⟩
  · intro he hne
    have hb : (t == "") = false := by simpa using hne
    constructor
    · intro n hn
      have hid := get_node_id hn
      simp [advanceNode, he, hb, hn, hid]
    · intro hn
      simp [advanceNode, he, hb, hn]
  · intro he
    simp [advanceNode, he]
  · intro hor
    rcases hor with he | he
    · constructor
      · intro n hn
        simp [advanceNode, he, hn]
      · intro hn
        simp [advanceNode, he, hn]
    · constructor
      · intro n hn
        simp [advanceNode, he, hn]
      · intro hn
        simp [advanceNode, he, hn]
  · intro db uid language s hs hpath hn hc hne
    have hn' : get_node cat s.current_path s.current_node_id = some node := by
      rw [hpath]; exact hn
    rw [make_choice_valid_eq cat db uid c.id language hs hn' hc]
    have hf2 := mcDb_findSession cat db uid c.id node c hs
    rw [get_current_state_of_find cat _ uid language hf2]
    rw [getStateWith_findSession cat _ uid language hf2]
    have hmc : (mcSession cat s node c).current_node_id =
        advanceNode cat pid node c := by
      show advanceNode cat s.current_path node c = advanceNode cat pid node c
      rw [hpath]
    have hnotstart : ((mcSession cat s node c).current_node_id == "start") = false := by
      rw [hmc]; simpa using hne
    simp [gcsSession, hnotstart, hmc, hne]

/-- Witness for C3 (amended) at the fixture: an explicit existing target
is taken, an explicit null terminates, an absent key advances by
sequence. -/
theorem C3_witness :
    advanceNode catW "farming" nodeA cSave = "n2" ∧
    advanceNode catW "farming" nodeA cQuit = "end" ∧
    advanceNode catW "farming" nodeA cSpend = "n2" := by
  refine ⟨?_, ?_, ?_⟩
  · exact ((C3_advancement_rules catW "farming" nodeA cSave "n2").1 rfl
      (by decide)).1 nodeB (by decide)
  · exact (C3_advancement_rules catW "farming" nodeA cQuit "x").2.1 rfl
  · exact ((C3_advancement_rules catW "farming" nodeA cSpend "x").2.2.1
      (Or.inl rfl)).1 nodeB (by decide)

/-- C9 counterexample: on a catalog whose path carries a bilingual
`protagonist`, `get_available_paths` returns the raw mapping, although
the bilingual fallback chain would resolve it (here to "B"): not every
human text field of the entry is resolved. -/
theorem C9_counterexample :
    (get_available_paths catBi "hindi").map (fun e => e.protagonist) =
      [TextValue.dict [("english", "A"), ("hindi", "B")]] ∧
    resolve_text (some (TextValue.dict [("english", "A"), ("hindi", "B")]))
        "hindi" = "B" ∧
    TextValue.dict [("english", "A"), ("hindi", "B")] ≠ TextValue.str "B" := by
  decide

/-- C9 (amended): `get_available_paths(language)` returns one entry per
path in the catalog with exactly the fields path_id, title, description
and protagonist; title and description are resolved to the requested
language via the bilingual fallback chain (title defaulting to the path
id, description to the empty string), while protagonist is passed through
unresolved (empty string when absent). -/
theorem C9_available_paths (cat : Catalog) (language : String) :
    (get_available_paths cat language).length = cat.paths.length ∧
    (∀ pid pdata, (pid, pdata) ∈ cat.paths →
      ({ path_id := pid
         title := resolve_text (some (pdata.title.getD (.str pid))) language
         description :=
           resolve_text (some (pdata.description.getD (.str ""))) language
         protagonist := pdata.protagonist.getD (.str "") } : PathEntry) ∈
        get_available_paths cat language) ∧
    (∀ e ∈ get_available_paths cat language,
      ∃ pid pdata, (pid, pdata) ∈ cat.paths ∧
        e.path_id = pid ∧
        e.title = resolve_text (some (pdata.title.getD (.str pid))) language ∧
        e.description =
          resolve_text (some (pdata.description.getD (.str ""))) language ∧
        e.protagonist = pdata.protagonist.getD (.str "")) := by
  refine ⟨by simp [get_available_paths], ?_, ?_⟩
  · intro pid pdata hmem
    unfold get_available_paths
    exact List.mem_map.mpr ⟨(pid, pdata), hmem, rfl⟩
  · intro e he
    unfold get_available_paths at he
    rcases List.mem_map.mp he with ⟨⟨pid, pdata⟩, hmem, hrfl⟩
    exact ⟨pid, pdata, hmem, by rw [← hrfl], by rw [← hrfl], by rw [← hrfl],
      by rw [← hrfl]⟩

/-- Witness for C9 (amended): the entry for the fixture bilingual path,
with the resolved title "S" and the raw protagonist mapping. -/
theorem C9_witness :
    ({ path_id := "p", title := "S", description := "D"
       protagonist := TextValue.dict [("english", "A"), ("hindi", "B")] } :
        PathEntry) ∈ get_available_paths catBi "hindi" := by
  have h := (C9_available_paths catBi "hindi").2.1 "p" biPath (by decide)
  have he :
      ({ path_id := "p"
         title := resolve_text (some (biPath.title.getD (.str "p"))) "hindi"
         description :=
           resolve_text (some (biPath.description.getD (.str ""))) "hindi"
         protagonist := biPath.protagonist.getD (.str "") } : PathEntry) =
        { path_id := "p", title := "S", description := "D"
          protagonist := TextValue.dict [("english", "A"), ("hindi", "B")] } := by
    decide
  exact he ▸ h

theorem selectedAt_some {cat : Catalog} {db : Db} {uid : Nat} {cid : String}
    {c : ChoiceData} (h : selectedAt cat db uid cid = some c) :
    ∃ s node, findSession db uid = some s ∧
      get_node cat s.current_path s.current_node_id = some node ∧
      node.choices.find? (fun ch => ch.id == cid) = some c := by
  unfold selectedAt at h
  cases hf : findSession db uid with
  | none => rw [hf] at h; cases h
  | some s =>
      rw [hf] at h
      dsimp only at h
      cases hn : get_node cat s.current_path s.current_node_id with
      | none => rw [hn] at h; cases h
      | some node =>
          rw [hn] at h
          dsimp only at h
          exact ⟨s, node, rfl, hn, h⟩

theorem make_choice_resources (cat : Catalog) (db : Db) (uid : Nat)
    (cid language : String) {s : GameSession} {node : NodeData}
    {c : ChoiceData} (hs : findSession db uid = some s)
    (hn : get_node cat s.current_path s.current_node_id = some node)
    (hc : node.choices.find? (fun ch => ch.id == cid) = some c) :
    resourcesOf (make_choice cat db uid cid language).2 uid =
      some (s.savings + choiceSavings c, s.debt + choiceDebt c,
        s.confidence + choiceConfidence c) := by
  rw [make_choice_valid_eq cat db uid cid language hs hn hc]
  have hf2 := mcDb_findSession cat db uid cid node c hs
  rw [get_current_state_of_find cat _ uid language hf2]
  unfold resourcesOf
  rw [getStateWith_findSession cat _ uid language hf2]
  have hfr := gcsSession_frame cat (mcSession cat s node c)
  simp only [Option.map_some']
  rw [hfr.2.2.2.1, hfr.2.2.2.2.1, hfr.2.2.2.2.2]
  rfl

/-- C2: from any session, a sequence of valid choices accumulates exactly
the sum of the impact deltas onto the starting resources — a missing
impact field counts as 0, and no clamping or bounds enforcement is applied
at any step, so values may go negative or above 100 (the equation is exact
over unbounded integers). -/
theorem C2_impact_accumulation (cat : Catalog) (uid : Nat) (language : String)
    (cids : List String) :
    ∀ (db : Db) (t : GameSession),
      findSession db uid = some t →
      validRun cat uid language db cids = true →
      resourcesOf (applyChoices cat uid language db cids) uid =
        some (t.savings + (runImpact cat uid language db cids).1,
          t.debt + (runImpact cat uid language db cids).2.1,
          t.confidence + (runImpact cat uid language db cids).2.2) := by
  induction cids with
  | nil =>
      intro db t ht _
      simp [applyChoices, runImpact, resourcesOf, ht]
  | cons cid rest ih =>
      intro db t ht hv
      simp only [validRun, Bool.and_eq_true] at hv
      obtain ⟨hsel, hv'⟩ := hv
      obtain ⟨c, hc⟩ := Option.isSome_iff_exists.mp hsel
      obtain ⟨s, node, hf, hn, hfind⟩ := selectedAt_some hc
      have hst : s = t := by
        have := hf.symm.trans ht
        injection this
      subst hst
      have hres := make_choice_resources cat db uid cid language hf hn hfind
      unfold resourcesOf at hres
      cases hfs : findSession (make_choice cat db uid cid language).2 uid with
      | none => rw [hfs] at hres; cases hres
      | some t1 =>
          rw [hfs] at hres
          simp only [Option.map_some', Option.some.injEq, Prod.mk.injEq] at hres
          obtain ⟨h1, h2, h3⟩ := hres
          have ihres := ih (stepChoice cat uid language db cid) t1 hfs hv'
          simp only [applyChoices, runImpact, hc]
          rw [ihres, h1, h2, h3]
          refine congrArg some ?_
          refine Prod.ext ?_ (Prod.ext ?_ ?_) <;> dsimp only <;> ring

/-- Witness for C2: the run "spend then finish" from the fixture session
(100, 0, 50) accumulates (-200, +10, 0) and lands at (-100, 10, 50) — the
savings go negative, demonstrating the absence of clamping. -/
theorem C2_witness :
    resourcesOf (applyChoices catW 1 "english" dbW ["c2", "c1"]) 1 =
      some (-100, 10, 50) := by
  have h := C2_impact_accumulation catW 1 "english" ["c2", "c1"] dbW sessW
    (by decide) (by decide)
  rw [h]
  decide

theorem find?_append_of_none {l1 l2 : List GameSession} {uid : Nat}
    (h : l1.find? (fun s => s.user_id == uid) = none) :
    (l1 ++ l2).find? (fun s => s.user_id == uid) =
      l2.find? (fun s => s.user_id == uid) := by
  induction l1 with
  | nil => rfl
  | cons a l ih =>
      cases hpa : (a.user_id == uid)
      · simp only [List.cons_append, List.find?_cons, hpa] at h ⊢
        exact ih h
      · simp [List.find?_cons, hpa] at h

/-- C4: `set_path` silently substitutes the fallback path "farming" for a
path id unknown to the catalog; in every case it resets the session (or
creates one) at the sentinel "start" on the chosen path with that path's
initial resources (missing fields defaulting to 0, 0 and 50), deletes
every history entry of an existing session, returns exactly what
`get_current_state` returns on the database so reset, and a subsequent
`rollback` reports "Cannot rollback further". -/
theorem C4_set_path (cat : Catalog) (db : Db) (uid : Nat)
    (path_id language : String) (hwf : DbWf db) :
    (getPath cat path_id = none →
      set_path cat db uid path_id language =
        set_path cat db uid "farming" language) ∧
    (set_path cat db uid path_id language =
      get_current_state cat (spDb cat db uid path_id) uid language) ∧
    (∀ s, findSession db uid = some s →
      findSession (spDb cat db uid path_id) uid =
        some { s with
                 current_path := spPid cat path_id
                 current_node_id := "start"
                 savings := (initialStats cat (spPid cat path_id)).1
                 debt := (initialStats cat (spPid cat path_id)).2.1
                 confidence := (initialStats cat (spPid cat path_id)).2.2 } ∧
      (spDb cat db uid path_id).history.filter
          (fun l => l.session_id == s.id) = []) ∧
    (findSession db uid = none →
      findSession (spDb cat db uid path_id) uid =
        some { id := db.nextSessionId
               user_id := uid
               current_path := spPid cat path_id
               current_node_id := "start"
               savings := (initialStats cat (spPid cat path_id)).1
               debt := (initialStats cat (spPid cat path_id)).2.1
               confidence := (initialStats cat (spPid cat path_id)).2.2 }) ∧
    (getPath cat path_id = none → spPid cat path_id = "farming") ∧
    (getPath cat path_id ≠ none → spPid cat path_id = path_id) ∧
    (rollback (set_path cat db uid path_id language).2 uid).1.message =
      "Cannot rollback further" := by
  have h3 : ∀ s, findSession db uid = some s →
      findSession (spDb cat db uid path_id) uid =
        some { s with
                 current_path := spPid cat path_id
                 current_node_id := "start"
                 savings := (initialStats cat (spPid cat path_id)).1
                 debt := (initialStats cat (spPid cat path_id)).2.1
                 confidence := (initialStats cat (spPid cat path_id)).2.2 } ∧
      (spDb cat db uid path_id).history.filter
          (fun l => l.session_id == s.id) = [] := by
    intro s hs
    have hu : s.user_id = uid := findSession_user_id hs
    constructor
    · unfold spDb
      rw [hs]
      unfold findSession at hs ⊢
      dsimp only
      exact find?_replaceFirst _ _ _ hu _ hs
    · unfold spDb
      rw [hs]
      dsimp only
      rw [List.filter_eq_nil_iff]
      intro a ha
      have := List.of_mem_filter ha
      simp at this ⊢
      exact this
  have h4 : findSession db uid = none →
      findSession (spDb cat db uid path_id) uid =
        some { id := db.nextSessionId
               user_id := uid
               current_path := spPid cat path_id
               current_node_id := "start"
               savings := (initialStats cat (spPid cat path_id)).1
               debt := (initialStats cat (spPid cat path_id)).2.1
               confidence := (initialStats cat (spPid cat path_id)).2.2 } := by
    intro hs
    unfold spDb
    rw [hs]
    unfold findSession at hs ⊢
    dsimp only
    rw [find?_append_of_none hs]
    simp [List.find?]
  have hroll :
      (rollback (set_path cat db uid path_id language).2 uid).1.message =
        "Cannot rollback further" := by
    have H : ∀ t0, findSession (spDb cat db uid path_id) uid = some t0 →
        (∀ l ∈ (spDb cat db uid path_id).history, ¬(l.session_id = t0.id)) →
        (rollback
            (get_current_state cat (spDb cat db uid path_id) uid
              language).2 uid).1.message = "Cannot rollback further" := by
      intro t0 hft0 hhist
      rw [get_current_state_of_find cat _ uid language hft0]
      have hf1 := getStateWith_findSession cat _ uid language hft0
      have hfr := (getStateWith_frame cat (spDb cat db uid path_id) uid t0
        language).1
      have hid : (gcsSession cat t0).id = t0.id := (gcsSession_frame cat t0).1
      have hnone : latestLog
          (getStateWith cat (spDb cat db uid path_id) uid t0 language).2.history
          (gcsSession cat t0).id = none := by
        rw [hfr, hid]
        exact latestLog_none _ _ hhist
      unfold rollback
      rw [hf1]
      dsimp only
      rw [hnone]
    show (rollback
        (get_current_state cat (spDb cat db uid path_id) uid language).2
        uid).1.message = "Cannot rollback further"
    cases hfs : findSession db uid with
    | some s =>
        refine H _ ((h3 s hfs).1) ?_
        intro l hl
        have hid : ({ s with
            current_path := spPid cat path_id
            current_node_id := "start"
            savings := (initialStats cat (spPid cat path_id)).1
            debt := (initialStats cat (spPid cat path_id)).2.1
            confidence := (initialStats cat (spPid cat path_id)).2.2 } :
          GameSession).id = s.id := rfl
        rw [hid]
        have hfil := (h3 s hfs).2
        intro hcontra
        have hmem : l ∈ (spDb cat db uid path_id).history.filter
            (fun x => x.session_id == s.id) :=
          List.mem_filter.mpr ⟨hl, by simpa using hcontra⟩
        rw [hfil] at hmem
        cases hmem
    | none =>
        refine H _ (h4 hfs) ?_
        intro l hl
        have hhist : (spDb cat db uid path_id).history = db.history := by
          unfold spDb
          rw [hfs]
        rw [hhist] at hl
        obtain ⟨s', hs', hsid⟩ := hwf.2.2.2.2 l hl
        have hlt : s'.id < db.nextSessionId := hwf.2.2.1 s' hs'
        intro hcontra
        rw [hcontra] at hsid
        show False
        have : ({ id := db.nextSessionId, user_id := uid
                  current_path := spPid cat path_id
                  current_node_id := "start"
                  savings := (initialStats cat (spPid cat path_id)).1
                  debt := (initialStats cat (spPid cat path_id)).2.1
                  confidence := (initialStats cat (spPid cat path_id)).2.2 } :
            GameSession).id = db.nextSessionId := rfl
        rw [this] at hsid
        omega
  refine ⟨?_, rfl, h3, h4, ?_, ?_, hroll⟩
  · intro hnone
    have hp : spPid cat path_id = "farming" := by
      unfold spPid
      rw [hnone]
    have hp2 : spPid cat "farming" = "farming" := by
      unfold spPid
      cases h : getPath cat "farming" <;> rfl
    unfold set_path spDb
    rw [hp, hp2]
  · intro hnone
    unfold spPid
    rw [hnone]
  · intro hsome
    unfold spPid
    cases h : getPath cat path_id with
    | none => exact absurd h hsome
    | some p => rfl

/-- Witness for C4: `set_path` for user 1 with the unknown path id "nope"
falls back to "farming", resets the session to "start" with resources
(100, 0, 50), and a following rollback reports "Cannot rollback
further". -/
theorem C4_witness :
    findSession (spDb catW dbW 1 "nope") 1 =
      some ⟨1, 1, "farming", "start", 100, 0, 50⟩ ∧
    (rollback (set_path catW dbW 1 "nope" "english").2 1).1.message =
      "Cannot rollback further" := by
  obtain ⟨h1, h2, h3, h4, h5, h6, h7⟩ := C4_set_path catW dbW 1 "nope" "english"
    (by decide)
  obtain ⟨ha, hb⟩ := h3 sessW (by decide)
  exact ⟨ha.trans (by decide), h7⟩

theorem restore_eq (t3 s : GameSession) (h1 : t3.id = s.id)
    (h2 : t3.user_id = s.user_id) (h3 : t3.current_path = s.current_path) :
    ({ t3 with
        savings := s.savings
        debt := s.debt
        confidence := s.confidence
        current_node_id := s.current_node_id } : GameSession) = s := by
  cases t3
  cases s
  simp_all

/-- C1: for a session whose current node resolves and a choice valid at
that node, `make_choice` followed by `rollback` restores the session
exactly — savings, debt, confidence and current_node_id (indeed the whole
row) equal their pre-choice values — and the history is restored to
exactly its pre-choice contents, the choice having pushed exactly one
entry for the session which the rollback pops. -/
theorem C1_rollback_inverts (cat : Catalog) (db : Db) (uid : Nat)
    (cid language : String) (s : GameSession) (node : NodeData)
    (c : ChoiceData) (hwf : DbWf db)
    (hs : findSession db uid = some s)
    (hn : get_node cat s.current_path s.current_node_id = some node)
    (hc : node.choices.find? (fun ch => ch.id == cid) = some c) :
    findSession (rollback (make_choice cat db uid cid language).2 uid).2 uid =
      some s ∧
    (rollback (make_choice cat db uid cid language).2 uid).2.history =
      db.history ∧
    ((make_choice cat db uid cid language).2.history.filter
        (fun l => l.session_id == s.id)).length =
      (db.history.filter (fun l => l.session_id == s.id)).length + 1 ∧
    (rollback (make_choice cat db uid cid language).2 uid).1.message =
      "Rolled back successfully" := by
  have hu : s.user_id = uid := findSession_user_id hs
  have hmc := make_choice_valid_eq cat db uid cid language hs hn hc
  have hf2 := mcDb_findSession cat db uid cid node c hs
  have hgcs := get_current_state_of_find cat (mcDb cat db uid cid s node c)
    uid language hf2
  have hf3 := getStateWith_findSession cat (mcDb cat db uid cid s node c)
    uid language hf2
  have hh3 := (getStateWith_frame cat (mcDb cat db uid cid s node c) uid
    (mcSession cat s node c) language).1
  have hMhist := mcDb_history cat db uid cid s node c
  have ht3id : (gcsSession cat (mcSession cat s node c)).id = s.id :=
    (gcsSession_frame cat (mcSession cat s node c)).1.trans rfl
  have ht3uid : (gcsSession cat (mcSession cat s node c)).user_id =
      s.user_id :=
    (gcsSession_frame cat (mcSession cat s node c)).2.1.trans rfl
  have ht3path : (gcsSession cat (mcSession cat s node c)).current_path =
      s.current_path :=
    (gcsSession_frame cat (mcSession cat s node c)).2.2.1.trans rfl
  have hfresh : ∀ l ∈ db.history, l.id < (mcLog db s cid).id := by
    intro l hl
    exact hwf.2.2.2.1 l hl
  have hlatest :
      latestLog (getStateWith cat (mcDb cat db uid cid s node c) uid
          (mcSession cat s node c) language).2.history
        (gcsSession cat (mcSession cat s node c)).id =
      some (mcLog db s cid) := by
    rw [hh3, hMhist, ht3id]
    exact latestLog_append_fresh db.history (mcLog db s cid) s.id rfl hfresh
  have hrestore :
      ({ gcsSession cat (mcSession cat s node c) with
          savings := s.savings
          debt := s.debt
          confidence := s.confidence
          current_node_id := s.current_node_id } : GameSession) = s :=
    restore_eq _ s ht3id ht3uid ht3path
  have hfilter :
      (db.history ++ [mcLog db s cid]).filter
          (fun l => !(l.id == (mcLog db s cid).id)) = db.history := by
    rw [List.filter_append]
    have hx := filter_fresh_id db.history (mcLog db s cid).id hfresh
    have hy : List.filter (fun l => !(l.id == (mcLog db s cid).id))
        [mcLog db s cid] = [] := by simp
    rw [hx, hy, List.append_nil]
  rw [hmc, hgcs]
  unfold rollback
  rw [hf3]
  dsimp only
  rw [hlatest]
  dsimp only [mcLog, Option.getD]
  refine ⟨?_, ?_, ?_, rfl⟩
  · unfold findSession
    dsimp only
    rw [hrestore]
    have hf3' : ((getStateWith cat (mcDb cat db uid cid s node c) uid
        (mcSession cat s node c) language).2.sessions).find?
        (fun x => x.user_id == uid) =
        some (gcsSession cat (mcSession cat s node c)) := hf3
    exact find?_replaceFirst _ _ _ hu _ hf3'
  · dsimp only
    rw [hh3, hMhist]
    exact hfilter
  · rw [hh3, hMhist, List.filter_append]
    have hz : List.filter (fun l => l.session_id == s.id) [mcLog db s cid] =
        [mcLog db s cid] := by simp [mcLog]
    rw [hz, List.length_append]
    rfl

/-- Witness for C1: taking choice "c1" at the fixture node and rolling
back restores the session (100, 0, 50, "n1") and the empty history. -/
theorem C1_witness :
    findSession (rollback (make_choice catW dbW 1 "c1" "english").2 1).2 1 =
      some sessW ∧
    (rollback (make_choice catW dbW 1 "c1" "english").2 1).2.history =
      dbW.history ∧
    ((make_choice catW dbW 1 "c1" "english").2.history.filter
        (fun l => l.session_id == sessW.id)).length =
      (dbW.history.filter (fun l => l.session_id == sessW.id)).length + 1 ∧
    (rollback (make_choice catW dbW 1 "c1" "english").2 1).1.message =
      "Rolled back successfully" :=
  C1_rollback_inverts catW dbW 1 "c1" "english" sessW nodeA cSave
    (by decide) (by decide) (by decide) (by decide)

end FinGame
